import Mathlib

/-!
Shallow embedding of the expense-tracker backend (src/main.go) for
verification of its specification.

The Go service is a Fiber HTTP app with four handlers over a MongoDB
collection of `Expense` documents.  We embed:

* the `Expense` record (`bson.ObjectID` ids become 24-char hex strings,
  `*float32` cost becomes `Rat`, `time.Time` becomes `Nat` ticks);
* the MongoDB collaborator as a list of documents, with `InsertOne`
  (honouring a document-supplied id), `UpdateOne` (`$set` merge on the
  first `_id` match, rejecting an empty `$set` with FailedToParse),
  `DeleteOne` (first `_id` match) and `Find {}` given their documented
  semantics;
* the four handlers `getExpenses`, `createExpense`, `updateExpense`,
  `removeExpense`, translated statement by statement from main.go.

Go pointer fields (`*string`, `*float32`) decoded from a JSON body are
`nil` both when the key is absent and when it is `null`; the three-way
`JsonField` type together with `goParsePtr` models that decoding.
-/

namespace ExpensesTracker

/-- An expense document as persisted in the store.  Mirrors the Go
`Expense` struct after a successful insert: id assigned, description and
cost present, created date stamped. -/
structure Expense where
  id : String
  description : String
  cost : Rat
  createdDate : Nat
  deriving Repr, DecidableEq

/-- The MongoDB collection `golang_db.expenses`: a sequence of documents. -/
abbrev Store := List Expense

/-- A JSON field of a request body as seen by Go's decoder: the key can be
absent, present with `null`, or present with a value. -/
inductive JsonField (α : Type) where
  | absent : JsonField α
  | null : JsonField α
  | val : α → JsonField α
  deriving Repr, DecidableEq

/-- Go decodes a JSON field into a pointer (`*float32` / `*string`): the
pointer is `nil` both for an absent key and for an explicit `null`, so
both map to `none`. -/
def goParsePtr {α : Type} : JsonField α → Option α
  | .absent => none
  | .null => none
  | .val a => some a

/-- A request body for POST/PATCH as decoded into the Go `Expense` struct.
`description` and `cost` are pointer fields; `createdDate` is a plain
`time.Time` value (zero when absent).  The decode target also carries
`ID bson.ObjectID` under the JSON key `_id`: `bson.ObjectID.UnmarshalJSON`
ignores `null`, and the zero value is dropped at insert by
`bson:"_id,omitempty"`, so absent, `null` and zero all collapse to `none`
while a supplied valid 24-hex id is `some`. -/
structure ExpenseBody where
  id : Option String
  description : JsonField String
  cost : JsonField Rat
  createdDate : Nat
  deriving Repr, DecidableEq

/-- `bson.ObjectIDFromHex` succeeds exactly on 24-character hexadecimal
strings (`encoding/hex` accepts both letter cases). -/
def isValidObjectIDHex (s : String) : Bool :=
  s.length == 24 &&
    s.toList.all fun c => c.isDigit || (Char.ofNat 97 ≤ c && c ≤ Char.ofNat 102)
      || (Char.ofNat 65 ≤ c && c ≤ Char.ofNat 70)

/-- The `$set` document built by `updateExpense`: at most a `cost` key and
a `description` key. -/
structure SetDoc where
  cost : Option Rat
  description : Option String
  deriving Repr, DecidableEq

/-- Applying a `$set` document to a matched record: supplied keys replace
the field, keys absent from the document leave the field untouched
(MongoDB `$set` semantics). -/
def applySet (s : SetDoc) (e : Expense) : Expense :=
  { e with
    cost := s.cost.getD e.cost
    description := s.description.getD e.description }

/-- The server-side effect of a non-empty `$set` document: rewrite the
first document whose id matches, returning the new collection and the
matched count. -/
def setFirstMatch (id : String) (s : SetDoc) : Store → Store × Nat
  | [] => ([], 0)
  | e :: rest =>
    if e.id = id then (applySet s e :: rest, 1)
    else
      let r := setFirstMatch id s rest
      (e :: r.1, r.2)

/-- The FailedToParse error MongoDB returns for an update whose `$set`
document is empty, as surfaced by the driver (braces and quotes of the
server text elided; no handler inspects the text). -/
def emptySetErrMsg : String :=
  "(FailedToParse) $set is empty. You must specify a field."

/-- MongoDB `UpdateOne` with filter `{_id: id}` and update `{$set: s}`.
The server rejects an empty `$set` document with a FailedToParse error
before matching anything; otherwise it rewrites the first document whose
id matches and reports the matched count. -/
def updateOne (id : String) (s : SetDoc) (store : Store) :
    Except String (Store × Nat) :=
  if s.cost.isNone && s.description.isNone then .error emptySetErrMsg
  else .ok (setFirstMatch id s store)

/-- MongoDB `DeleteOne` with filter `{_id: id}`: removes the first
document whose id matches, returns the new collection and the deleted
count. -/
def deleteOne (id : String) : Store → Store × Nat
  | [] => ([], 0)
  | e :: rest =>
    if e.id = id then (rest, 1)
    else
      let r := deleteOne id rest
      (e :: r.1, r.2)

/-- A response body as serialised by the handlers: an error object
`{success: false, message}`, a created/listed expense payload, or the
acknowledgment `{success: true}`. -/
inductive RespBody where
  | error : String → RespBody
  | expense : Expense → RespBody
  | list : List Expense → RespBody
  | success : RespBody
  deriving Repr, DecidableEq

/-- An HTTP response: status code plus JSON body. -/
structure Response where
  status : Nat
  body : RespBody
  deriving Repr, DecidableEq

/-- main.go line 73: the validation error for a bad `cost`. -/
def costNotPositiveNumErr : Response :=
  { status := 400, body := .error "`cost` must be a positive number" }

/-- main.go line 77: the validation error for a bad `description`. -/
def descriptionEmptyErr : Response :=
  { status := 400, body := .error "`description` must not be empty" }

/-- main.go line 132/171: the 400 response for a malformed object id. -/
def invalidObjectIDErr : Response :=
  { status := 400, body := .error "the provided hex string is not a valid ObjectID" }

/-- main.go line 184: the 404 response of `removeExpense`. -/
def noEntityErr : Response :=
  { status := 404, body := .error "no entity with such `id`" }

/-- Handler `getExpenses` (main.go lines 89-102): `Find` with the empty
filter returns every document; the handler serialises them unchanged and
does not write to the collection. -/
def getExpenses (store : Store) : Response × Store :=
  ({ status := 200, body := .list store }, store)

/-- Handler `createExpense` (main.go lines 104-128).  `now` is the value
of `time.Now()` at line 118 and `newId` the object id assigned at insert
when the document carries none.  The decoded body's `createdDate` is
overwritten before the insert; a decoded nonzero `_id` survives
`bson:"_id,omitempty"`, is inserted as the document id, and comes back
as `result.InsertedID` at line 125. -/
def createExpense (now : Nat) (newId : String) (body : ExpenseBody)
    (store : Store) : Response × Store :=
  let cost? := goParsePtr body.cost
  let descr? := goParsePtr body.description
  if cost?.isNone || cost?.any (· ≤ 0) then
    (costNotPositiveNumErr, store)
  else if descr?.isNone || descr?.any (· = "") then
    (descriptionEmptyErr, store)
  else
    let e : Expense :=
      { id := body.id.getD newId
        description := descr?.getD ""
        cost := cost?.getD 0
        createdDate := now }
    ({ status := 201, body := .expense e }, store ++ [e])

/-- Handler `updateExpense` (main.go lines 130-167).  The id is parsed
first; each supplied (non-nil) field is validated and put into the `$set`
document; an `UpdateOne` error — in particular the empty-`$set`
FailedToParse when no field was supplied — is answered with 400 and the
error text (line 163), while on success the matched count is discarded
and the handler answers `{success: true}` with status 200. -/
def updateExpense (idStr : String) (body : ExpenseBody)
    (store : Store) : Response × Store :=
  if !isValidObjectIDHex idStr then
    (invalidObjectIDErr, store)
  else
    let cost? := goParsePtr body.cost
    let descr? := goParsePtr body.description
    if cost?.any (· ≤ 0) then
      (costNotPositiveNumErr, store)
    else if descr?.any (· = "") then
      (descriptionEmptyErr, store)
    else
      match updateOne idStr { cost := cost?, description := descr? } store with
      | .error msg => ({ status := 400, body := .error msg }, store)
      | .ok r => ({ status := 200, body := .success }, r.1)

/-- Handler `removeExpense` (main.go lines 169-191).  The id is parsed
first; `DeleteOne` runs, and a deleted count of zero yields the 404
response. -/
def removeExpense (idStr : String) (store : Store) : Response × Store :=
  if !isValidObjectIDHex idStr then
    (invalidObjectIDErr, store)
  else
    let r := deleteOne idStr store
    if r.2 = 0 then
      (noEntityErr, r.1)
    else
      ({ status := 200, body := .success }, r.1)

/-- A client request to the API, for stating properties over arbitrary
request sequences. -/
inductive Request where
  | list : Request
  | create (now : Nat) (newId : String) (body : ExpenseBody) : Request
  | update (idStr : String) (body : ExpenseBody) : Request
  | remove (idStr : String) : Request
  deriving Repr, DecidableEq

/-- Dispatch one request to its handler. -/
def handle (req : Request) (store : Store) : Response × Store :=
  match req with
  | .list => getExpenses store
  | .create now newId body => createExpense now newId body store
  | .update idStr body => updateExpense idStr body store
  | .remove idStr => removeExpense idStr store

/-- Run a sequence of requests against the store, keeping only the final
store state. -/
def runRequests : List Request → Store → Store
  | [], store => store
  | req :: rest, store => runRequests rest (handle req store).2

/-- The data-model invariant of §3 of the spec: every persisted record has
a strictly positive cost and a non-empty description. -/
def StoreInvariant (store : Store) : Prop :=
  ∀ e ∈ store, 0 < e.cost ∧ e.description ≠ ""

instance (store : Store) : Decidable (StoreInvariant store) := by
  unfold StoreInvariant
  infer_instance

/-! ### Lemmas about the store collaborator -/

theorem setFirstMatch_no_match (id : String) (s : SetDoc) (store : Store)
    (h : ∀ e ∈ store, e.id ≠ id) : setFirstMatch id s store = (store, 0) := by
  induction store with
  | nil => rfl
  | cons e rest ih =>
    have he : e.id ≠ id := h e (List.mem_cons_self e rest)
    have hrest : ∀ x ∈ rest, x.id ≠ id := fun x hx => h x (List.mem_cons_of_mem e hx)
    simp [setFirstMatch, he, ih hrest]

theorem setFirstMatch_first_match (id : String) (s : SetDoc) (pre post : Store)
    (e : Expense) (hpre : ∀ x ∈ pre, x.id ≠ id) (he : e.id = id) :
    setFirstMatch id s (pre ++ e :: post) = (pre ++ applySet s e :: post, 1) := by
  induction pre with
  | nil => simp [setFirstMatch, he]
  | cons x rest ih =>
    have hx : x.id ≠ id := hpre x (List.mem_cons_self x rest)
    have hrest : ∀ y ∈ rest, y.id ≠ id := fun y hy => hpre y (List.mem_cons_of_mem x hy)
    simp [setFirstMatch, hx, ih hrest]

theorem deleteOne_no_match (id : String) (store : Store)
    (h : ∀ e ∈ store, e.id ≠ id) : deleteOne id store = (store, 0) := by
  induction store with
  | nil => rfl
  | cons e rest ih =>
    have he : e.id ≠ id := h e (List.mem_cons_self e rest)
    have hrest : ∀ x ∈ rest, x.id ≠ id := fun x hx => h x (List.mem_cons_of_mem e hx)
    simp [deleteOne, he, ih hrest]

theorem deleteOne_first_match (id : String) (pre post : Store) (e : Expense)
    (hpre : ∀ x ∈ pre, x.id ≠ id) (he : e.id = id) :
    deleteOne id (pre ++ e :: post) = (pre ++ post, 1) := by
  induction pre with
  | nil => simp [deleteOne, he]
  | cons x rest ih =>
    have hx : x.id ≠ id := hpre x (List.mem_cons_self x rest)
    have hrest : ∀ y ∈ rest, y.id ≠ id := fun y hy => hpre y (List.mem_cons_of_mem x hy)
    simp [deleteOne, hx, ih hrest]

theorem setFirstMatch_mem (id : String) (s : SetDoc) (store : Store) (x : Expense)
    (hx : x ∈ (setFirstMatch id s store).1) :
    x ∈ store ∨ ∃ e ∈ store, x = applySet s e := by
  induction store with
  | nil => simp [setFirstMatch] at hx
  | cons e rest ih =>
    by_cases he : e.id = id
    · simp only [setFirstMatch, he, if_pos rfl] at hx
      rcases List.mem_cons.mp hx with h | h
      · exact Or.inr ⟨e, List.mem_cons_self e rest, h⟩
      · exact Or.inl (List.mem_cons_of_mem e h)
    · simp only [setFirstMatch, he, if_neg, ite_false] at hx
      rcases List.mem_cons.mp hx with h | h
      · exact Or.inl (h ▸ List.mem_cons_self e rest)
      · rcases ih h with h | ⟨y, hy, hxy⟩
        · exact Or.inl (List.mem_cons_of_mem e h)
        · exact Or.inr ⟨y, List.mem_cons_of_mem e hy, hxy⟩

theorem deleteOne_mem (id : String) (store : Store) (x : Expense)
    (hx : x ∈ (deleteOne id store).1) : x ∈ store := by
  induction store with
  | nil => simp [deleteOne] at hx
  | cons e rest ih =>
    by_cases he : e.id = id
    · simp only [deleteOne, he, if_pos rfl] at hx
      exact List.mem_cons_of_mem e hx
    · simp only [deleteOne, he, if_neg, ite_false] at hx
      rcases List.mem_cons.mp hx with h | h
      · exact h ▸ List.mem_cons_self e rest
      · exact List.mem_cons_of_mem e (ih h)

theorem deleteOne_count_zero (id : String) (store : Store)
    (h : (deleteOne id store).2 = 0) : (deleteOne id store).1 = store := by
  induction store with
  | nil => rfl
  | cons e rest ih =>
    by_cases he : e.id = id
    · simp [deleteOne, he] at h
    · simp only [deleteOne, he, if_neg, ite_false] at h ⊢
      exact congrArg (e :: ·) (ih h)

/-! ### Invariant preservation -/

theorem applySet_valid (s : SetDoc) (e : Expense)
    (hc : ∀ c, s.cost = some c → 0 < c)
    (hd : ∀ d, s.description = some d → d ≠ "")
    (he : 0 < e.cost ∧ e.description ≠ "") :
    0 < (applySet s e).cost ∧ (applySet s e).description ≠ "" := by
  rcases s with ⟨_ | c, _ | d⟩
  · simpa [applySet] using he
  · exact ⟨by simpa [applySet] using he.1, by simpa [applySet] using hd d rfl⟩
  · exact ⟨by simpa [applySet] using hc c rfl, by simpa [applySet] using he.2⟩
  · exact ⟨by simpa [applySet] using hc c rfl, by simpa [applySet] using hd d rfl⟩

theorem createExpense_preserves_invariant (now : Nat) (newId : String)
    (body : ExpenseBody) (store : Store) (h : StoreInvariant store) :
    StoreInvariant (createExpense now newId body store).2 := by
  rcases hc : goParsePtr body.cost with _ | c
  · simpa [createExpense, hc] using h
  · by_cases hce : c ≤ 0
    · simpa [createExpense, hc, hce] using h
    · rcases hd : goParsePtr body.description with _ | d
      · simpa [createExpense, hc, hce, hd] using h
      · by_cases hde : d = ""
        · simpa [createExpense, hc, hce, hd, hde] using h
        · intro x hx
          simp only [createExpense, hc, hd, hce, hde, Option.isNone_some,
            Option.any_some, decide_eq_true_eq, Bool.false_or, if_neg,
            ite_false, decide_eq_false] at hx
          rcases List.mem_append.mp hx with hx | hx
          · exact h x hx
          · rcases List.mem_singleton.mp hx with rfl
            exact ⟨not_le.mp hce, hde⟩

theorem updateExpense_preserves_invariant (idStr : String)
    (body : ExpenseBody) (store : Store) (h : StoreInvariant store) :
    StoreInvariant (updateExpense idStr body store).2 := by
  by_cases hid : isValidObjectIDHex idStr
  · rcases hc : goParsePtr body.cost with _ | c <;>
      rcases hd : goParsePtr body.description with _ | d
    · simpa [updateExpense, hid, hc, hd, updateOne] using h
    · by_cases hde : d = ""
      · simpa [updateExpense, hid, hc, hd, hde] using h
      · intro x hx
        simp [updateExpense, hid, hc, hd, hde, updateOne] at hx
        rcases setFirstMatch_mem idStr _ store x hx with hm | ⟨e, he, rfl⟩
        · exact h x hm
        · exact applySet_valid _ e (by rintro c ⟨⟩)
            (by rintro d' hd'; cases hd'; exact hde) (h e he)
    · by_cases hce : c ≤ 0
      · simpa [updateExpense, hid, hc, hce] using h
      · intro x hx
        simp [updateExpense, hid, hc, hd, hce, updateOne] at hx
        rcases setFirstMatch_mem idStr _ store x hx with hm | ⟨e, he, rfl⟩
        · exact h x hm
        · exact applySet_valid _ e
            (by rintro c' hc'; cases hc'; exact not_le.mp hce)
            (by rintro d ⟨⟩) (h e he)
    · by_cases hce : c ≤ 0
      · simpa [updateExpense, hid, hc, hce] using h
      · by_cases hde : d = ""
        · simpa [updateExpense, hid, hc, hd, hce, hde] using h
        · intro x hx
          simp [updateExpense, hid, hc, hd, hce, hde, updateOne] at hx
          rcases setFirstMatch_mem idStr _ store x hx with hm | ⟨e, he, rfl⟩
          · exact h x hm
          · exact applySet_valid _ e
              (by rintro c' hc'; cases hc'; exact not_le.mp hce)
              (by rintro d' hd'; cases hd'; exact hde) (h e he)
  · simpa [updateExpense, hid] using h

theorem removeExpense_preserves_invariant (idStr : String) (store : Store)
    (h : StoreInvariant store) :
    StoreInvariant (removeExpense idStr store).2 := by
  by_cases hid : isValidObjectIDHex idStr
  · by_cases hz : (deleteOne idStr store).2 = 0
    · intro x hx
      simp only [removeExpense, hid, Bool.not_true, hz, if_pos,
        ite_true, Bool.false_eq_true, if_neg, ite_false] at hx
      exact h x (deleteOne_mem idStr store x hx)
    · intro x hx
      simp only [removeExpense, hid, Bool.not_true, hz, if_neg,
        ite_false, Bool.false_eq_true] at hx
      exact h x (deleteOne_mem idStr store x hx)
  · simpa [removeExpense, hid] using h

theorem handle_preserves_invariant (req : Request) (store : Store)
    (h : StoreInvariant store) : StoreInvariant (handle req store).2 := by
  cases req with
  | list => exact h
  | create now newId body => exact createExpense_preserves_invariant now newId body store h
  | update idStr body => exact updateExpense_preserves_invariant idStr body store h
  | remove idStr => exact removeExpense_preserves_invariant idStr store h

theorem runRequests_preserves_invariant (reqs : List Request) (store : Store)
    (h : StoreInvariant store) : StoreInvariant (runRequests reqs store) := by
  induction reqs generalizing store with
  | nil => exact h
  | cons req rest ih =>
    exact ih (handle req store).2 (handle_preserves_invariant req store h)

/-! ### Claim theorems -/

/-- C2: every handler preserves the data-model invariant (cost strictly
positive, description non-empty, for every persisted record), so the
invariant holds after any sequence of requests starting from the empty
store. -/
theorem claim_persisted_records_valid (reqs : List Request) :
    (∀ req store, StoreInvariant store → StoreInvariant (handle req store).2) ∧
    StoreInvariant (runRequests reqs []) :=
  ⟨handle_preserves_invariant,
   runRequests_preserves_invariant reqs [] (by intro e he; cases he)⟩

/-- Witness for C2: a concrete create/update/remove sequence, plus the
preservation conjunct applied to a concrete request and store. -/
theorem claim_persisted_records_valid_witness :
    StoreInvariant (runRequests
      [Request.create 7 "aaaaaaaaaaaaaaaaaaaaaaaa" ⟨none, .val "Coffee", .val (9/2), 0⟩,
       Request.update "aaaaaaaaaaaaaaaaaaaaaaaa" ⟨none, .absent, .val 5, 0⟩,
       Request.remove "bbbbbbbbbbbbbbbbbbbbbbbb"] []) ∧
    StoreInvariant (handle (Request.remove "bbbbbbbbbbbbbbbbbbbbbbbb")
      [⟨"aaaaaaaaaaaaaaaaaaaaaaaa", "Tea", 3, 1⟩]).2 :=
  ⟨(claim_persisted_records_valid _).2,
   (claim_persisted_records_valid []).1 (Request.remove "bbbbbbbbbbbbbbbbbbbbbbbb")
     [⟨"aaaaaaaaaaaaaaaaaaaaaaaa", "Tea", 3, 1⟩] (by decide)⟩

/-- C3: an update supplying only a valid `cost` rewrites exactly the cost
of the first record matching the id and leaves its description,
createdDate and id (and every other record) unchanged; symmetrically for
an update supplying only a valid `description`. -/
theorem claim_update_single_field_frame (idStr : String) (pre post : Store)
    (e : Expense) (bid : Option String) (cd : Nat)
    (hid : isValidObjectIDHex idStr = true)
    (hpre : ∀ x ∈ pre, x.id ≠ idStr) (he : e.id = idStr) :
    (∀ c : Rat, 0 < c →
      updateExpense idStr ⟨bid, .absent, .val c, cd⟩ (pre ++ e :: post) =
        ({ status := 200, body := RespBody.success },
         pre ++ { id := e.id, description := e.description, cost := c,
                  createdDate := e.createdDate } :: post)) ∧
    (∀ d : String, d ≠ "" →
      updateExpense idStr ⟨bid, .val d, .absent, cd⟩ (pre ++ e :: post) =
        ({ status := 200, body := RespBody.success },
         pre ++ { id := e.id, description := d, cost := e.cost,
                  createdDate := e.createdDate } :: post)) := by
  constructor
  · intro c hcpos
    have hu := setFirstMatch_first_match idStr ⟨some c, none⟩ pre post e hpre he
    simp [updateExpense, hid, goParsePtr, updateOne, not_le.mpr hcpos, hu, applySet]
  · intro d hdne
    have hu := setFirstMatch_first_match idStr ⟨none, some d⟩ pre post e hpre he
    simp [updateExpense, hid, goParsePtr, updateOne, hdne, hu, applySet]

/-- Witness for C3: a cost-only and a description-only update on a
singleton store. -/
theorem claim_update_single_field_frame_witness :
    updateExpense "aaaaaaaaaaaaaaaaaaaaaaaa" ⟨none, .absent, .val 5, 9⟩
        [⟨"aaaaaaaaaaaaaaaaaaaaaaaa", "Coffee", 2, 7⟩] =
      ({ status := 200, body := RespBody.success },
       [⟨"aaaaaaaaaaaaaaaaaaaaaaaa", "Coffee", 5, 7⟩]) ∧
    updateExpense "aaaaaaaaaaaaaaaaaaaaaaaa" ⟨none, .val "Tea", .absent, 9⟩
        [⟨"aaaaaaaaaaaaaaaaaaaaaaaa", "Coffee", 2, 7⟩] =
      ({ status := 200, body := RespBody.success },
       [⟨"aaaaaaaaaaaaaaaaaaaaaaaa", "Tea", 2, 7⟩]) := by
  have h := claim_update_single_field_frame "aaaaaaaaaaaaaaaaaaaaaaaa" [] []
    ⟨"aaaaaaaaaaaaaaaaaaaaaaaa", "Coffee", 2, 7⟩ none 9 (by decide)
    (by intro x hx; cases hx) rfl
  exact ⟨h.1 5 (by decide), h.2 "Tea" (by decide)⟩

/-- C4: an update in which some supplied field is invalid (cost supplied
and ≤ 0, or description supplied and empty) is rejected with one of the
two 400 validation responses before `UpdateOne` runs, so no stored
record is modified — even when the other supplied field is valid. -/
theorem claim_update_invalid_field_rejected (idStr : String)
    (body : ExpenseBody) (store : Store)
    (hid : isValidObjectIDHex idStr = true)
    (hbad : (∃ c, goParsePtr body.cost = some c ∧ c ≤ 0) ∨
      goParsePtr body.description = some "") :
    (updateExpense idStr body store).2 = store ∧
    ((updateExpense idStr body store).1 = costNotPositiveNumErr ∨
     (updateExpense idStr body store).1 = descriptionEmptyErr) := by
  by_cases hcbad : ∃ c, goParsePtr body.cost = some c ∧ c ≤ 0
  · obtain ⟨c, hc, hce⟩ := hcbad
    simp [updateExpense, hid, hc, hce]
  · have hdbad : goParsePtr body.description = some "" := hbad.resolve_left hcbad
    rcases hc : goParsePtr body.cost with _ | c
    · simp [updateExpense, hid, hc, hdbad]
    · have hce : ¬c ≤ 0 := fun hle => hcbad ⟨c, hc, hle⟩
      simp [updateExpense, hid, hc, hce, hdbad]

/-- Witness for C4: a body with a valid cost and an empty description is
rejected whole — the valid cost is not applied. -/
theorem claim_update_invalid_field_rejected_witness :
    (updateExpense "aaaaaaaaaaaaaaaaaaaaaaaa" ⟨none, .val "", .val 5, 0⟩
        [⟨"aaaaaaaaaaaaaaaaaaaaaaaa", "Coffee", 2, 7⟩]).2 =
      [⟨"aaaaaaaaaaaaaaaaaaaaaaaa", "Coffee", 2, 7⟩] ∧
    ((updateExpense "aaaaaaaaaaaaaaaaaaaaaaaa" ⟨none, .val "", .val 5, 0⟩
        [⟨"aaaaaaaaaaaaaaaaaaaaaaaa", "Coffee", 2, 7⟩]).1 = costNotPositiveNumErr ∨
     (updateExpense "aaaaaaaaaaaaaaaaaaaaaaaa" ⟨none, .val "", .val 5, 0⟩
        [⟨"aaaaaaaaaaaaaaaaaaaaaaaa", "Coffee", 2, 7⟩]).1 = descriptionEmptyErr) :=
  claim_update_invalid_field_rejected "aaaaaaaaaaaaaaaaaaaaaaaa"
    ⟨none, .val "", .val 5, 0⟩ [⟨"aaaaaaaaaaaaaaaaaaaaaaaa", "Coffee", 2, 7⟩]
    (by decide) (Or.inr rfl)

/-- C5: a POST whose cost is absent (nil) or ≤ 0 is rejected with the
cost validation response, and a POST with valid cost whose description
is absent or empty is rejected with the description validation response;
in both cases nothing is inserted. -/
theorem claim_create_invalid_rejected (now : Nat) (newId : String)
    (body : ExpenseBody) (store : Store) :
    ((goParsePtr body.cost = none ∨ (∃ c, goParsePtr body.cost = some c ∧ c ≤ 0)) →
      createExpense now newId body store = (costNotPositiveNumErr, store)) ∧
    (∀ c, goParsePtr body.cost = some c → 0 < c →
      (goParsePtr body.description = none ∨ goParsePtr body.description = some "") →
      createExpense now newId body store = (descriptionEmptyErr, store)) := by
  constructor
  · rintro (hc | ⟨c, hc, hce⟩)
    · simp [createExpense, hc]
    · simp [createExpense, hc, hce]
  · rintro c hc hcpos (hd | hd) <;>
      simp [createExpense, hc, not_le.mpr hcpos, hd]

/-- Witness for C5: cost 0 triggers the cost response; valid cost with
empty description triggers the description response; the store is
untouched both times. -/
theorem claim_create_invalid_rejected_witness :
    createExpense 7 "aaaaaaaaaaaaaaaaaaaaaaaa" ⟨none, .val "Coffee", .val 0, 0⟩ [] =
      (costNotPositiveNumErr, []) ∧
    createExpense 7 "aaaaaaaaaaaaaaaaaaaaaaaa" ⟨none, .val "", .val 5, 0⟩ [] =
      (descriptionEmptyErr, []) :=
  ⟨(claim_create_invalid_rejected 7 "aaaaaaaaaaaaaaaaaaaaaaaa"
      ⟨none, .val "Coffee", .val 0, 0⟩ []).1 (Or.inr ⟨0, rfl, le_refl 0⟩),
   (claim_create_invalid_rejected 7 "aaaaaaaaaaaaaaaaaaaaaaaa"
      ⟨none, .val "", .val 5, 0⟩ []).2 5 rfl (by decide) (Or.inr rfl)⟩

/-- C7: a DELETE with a well-formed id answers 404 exactly when
`DeleteOne` reports zero deletions (equivalently, no record matches);
otherwise it answers 200 `{success: true}` having removed exactly the
first matching record. -/
theorem claim_remove_not_found_iff (idStr : String) (store : Store)
    (hid : isValidObjectIDHex idStr = true) :
    ((deleteOne idStr store).2 = 0 →
      removeExpense idStr store = (noEntityErr, store)) ∧
    ((∀ e ∈ store, e.id ≠ idStr) → (deleteOne idStr store).2 = 0) ∧
    (∀ pre e post, store = pre ++ e :: post → (∀ x ∈ pre, x.id ≠ idStr) →
      e.id = idStr →
      removeExpense idStr store =
        ({ status := 200, body := RespBody.success }, pre ++ post)) := by
  refine ⟨fun hz => ?_, fun hmiss => ?_, ?_⟩
  · simp [removeExpense, hid, hz, deleteOne_count_zero idStr store hz]
  · rw [deleteOne_no_match idStr store hmiss]
  · rintro pre e post rfl hpre he
    simp [removeExpense, hid, deleteOne_first_match idStr pre post e hpre he]

/-- Witness for C7: deleting a missing id answers 404 and keeps the
store; deleting a present id removes exactly that record. -/
theorem claim_remove_not_found_iff_witness :
    removeExpense "bbbbbbbbbbbbbbbbbbbbbbbb"
        [⟨"aaaaaaaaaaaaaaaaaaaaaaaa", "Coffee", 2, 7⟩] =
      (noEntityErr, [⟨"aaaaaaaaaaaaaaaaaaaaaaaa", "Coffee", 2, 7⟩]) ∧
    removeExpense "aaaaaaaaaaaaaaaaaaaaaaaa"
        [⟨"aaaaaaaaaaaaaaaaaaaaaaaa", "Coffee", 2, 7⟩] =
      ({ status := 200, body := RespBody.success }, []) := by
  constructor
  · exact (claim_remove_not_found_iff "bbbbbbbbbbbbbbbbbbbbbbbb"
      [⟨"aaaaaaaaaaaaaaaaaaaaaaaa", "Coffee", 2, 7⟩] (by decide)).1 (by decide)
  · exact (claim_remove_not_found_iff "aaaaaaaaaaaaaaaaaaaaaaaa"
      [⟨"aaaaaaaaaaaaaaaaaaaaaaaa", "Coffee", 2, 7⟩] (by decide)).2.2
      [] ⟨"aaaaaaaaaaaaaaaaaaaaaaaa", "Coffee", 2, 7⟩ [] rfl
      (by intro x hx; cases hx) rfl

/-- C9: for every store state, the list (GET) operation returns status 200
with exactly the records the store holds — unfiltered, in store order,
fields untouched — and leaves the store unmodified. -/
theorem claim_list_returns_store_exactly (store : Store) :
    getExpenses store =
      ({ status := 200, body := RespBody.list store }, store) := rfl

/-- C8: an update or delete request whose identifier is not a valid
object id is rejected with the 400 invalid-identifier response, and the
store is returned unchanged (no store operation is reached). -/
theorem claim_malformed_id_rejected (idStr : String) (body : ExpenseBody)
    (store : Store) (h : isValidObjectIDHex idStr = false) :
    updateExpense idStr body store = (invalidObjectIDErr, store) ∧
    removeExpense idStr store = (invalidObjectIDErr, store) := by
  constructor <;> simp [updateExpense, removeExpense, h]

/-- Witness for C8 at the malformed identifier "xyz" on a singleton
store. -/
theorem claim_malformed_id_rejected_witness :
    isValidObjectIDHex "xyz" = false ∧
    updateExpense "xyz" ⟨none, .absent, .val 5, 0⟩ [⟨"a", "Coffee", 2, 0⟩] =
      (invalidObjectIDErr, [⟨"a", "Coffee", 2, 0⟩]) ∧
    removeExpense "xyz" [⟨"a", "Coffee", 2, 0⟩] =
      (invalidObjectIDErr, [⟨"a", "Coffee", 2, 0⟩]) := by
  refine ⟨by decide, ?_⟩
  exact claim_malformed_id_rejected "xyz" ⟨none, .absent, .val 5, 0⟩
    [⟨"a", "Coffee", 2, 0⟩] (by decide)

/-- C1 counterexample: a PATCH with the well-formed identifier
`aaaaaaaaaaaaaaaaaaaaaaaa` on the empty store (so no record matches) and
a valid body `{cost: 5}` is answered with 200 `{success: true}`, not
with a not-found error: `updateExpense` discards `UpdateOne`'s matched
count, so the claimed 404 branch does not exist. -/
theorem claim_update_missing_id_counterexample :
    isValidObjectIDHex "aaaaaaaaaaaaaaaaaaaaaaaa" = true ∧
    (∀ e ∈ ([] : Store), e.id ≠ "aaaaaaaaaaaaaaaaaaaaaaaa") ∧
    updateExpense "aaaaaaaaaaaaaaaaaaaaaaaa" ⟨none, .absent, .val 5, 0⟩ [] =
      ({ status := 200, body := RespBody.success }, []) ∧
    (updateExpense "aaaaaaaaaaaaaaaaaaaaaaaa" ⟨none, .absent, .val 5, 0⟩ []).1.status
      ≠ 404 := by
  refine ⟨by decide, by simp, by decide, by decide⟩

/-- C1 amended: an update with a well-formed identifier matching no
stored record modifies no stored record, and is never answered with a
404 not-found — the matched count of `UpdateOne` is discarded; when at
least one field is supplied and every supplied field is valid the answer
is 200 `{success: true}` (a request supplying no field instead gets the
400 empty-`$set` error). -/
theorem claim_update_missing_id_no_mutation (idStr : String)
    (body : ExpenseBody) (store : Store)
    (hid : isValidObjectIDHex idStr = true)
    (hmiss : ∀ e ∈ store, e.id ≠ idStr) :
    (updateExpense idStr body store).2 = store ∧
    (updateExpense idStr body store).1.status ≠ 404 ∧
    (((goParsePtr body.cost).isSome ∨ (goParsePtr body.description).isSome) →
     (∀ c, goParsePtr body.cost = some c → 0 < c) →
     (∀ d, goParsePtr body.description = some d → d ≠ "") →
     (updateExpense idStr body store).1 =
       { status := 200, body := RespBody.success }) := by
  have hupd := fun s => setFirstMatch_no_match idStr s store hmiss
  rcases hc : goParsePtr body.cost with _ | c <;>
    rcases hd : goParsePtr body.description with _ | d
  · refine ⟨?_, ?_, fun hsupp _ _ => absurd hsupp (by simp)⟩ <;>
      simp [updateExpense, hid, hc, hd, updateOne]
  · by_cases hde : d = ""
    · refine ⟨?_, ?_, fun _ _ hball => absurd hde (hball d rfl)⟩ <;>
        simp [updateExpense, hid, hc, hd, hde, descriptionEmptyErr]
    · refine ⟨?_, ?_, fun _ _ _ => ?_⟩ <;>
        simp [updateExpense, hid, hc, hd, hde, updateOne, hupd]
  · by_cases hce : c ≤ 0
    · refine ⟨?_, ?_, fun _ hcall _ => absurd hce (not_le.mpr (hcall c rfl))⟩ <;>
        simp [updateExpense, hid, hc, hce, costNotPositiveNumErr]
    · refine ⟨?_, ?_, fun _ _ _ => ?_⟩ <;>
        simp [updateExpense, hid, hc, hd, hce, updateOne, hupd]
  · by_cases hce : c ≤ 0
    · refine ⟨?_, ?_, fun _ hcall _ => absurd hce (not_le.mpr (hcall c rfl))⟩ <;>
        simp [updateExpense, hid, hc, hce, costNotPositiveNumErr]
    · by_cases hde : d = ""
      · refine ⟨?_, ?_, fun _ _ hball => absurd hde (hball d rfl)⟩ <;>
          simp [updateExpense, hid, hc, hd, hce, hde, descriptionEmptyErr]
      · refine ⟨?_, ?_, fun _ _ _ => ?_⟩ <;>
          simp [updateExpense, hid, hc, hd, hce, hde, updateOne, hupd]

/-- Witness for the amended C1 on the empty store with body
`{cost: 5}`. -/
theorem claim_update_missing_id_no_mutation_witness :
    (updateExpense "aaaaaaaaaaaaaaaaaaaaaaaa" ⟨none, .absent, .val 5, 0⟩ []).2
      = [] ∧
    (updateExpense "aaaaaaaaaaaaaaaaaaaaaaaa"
      ⟨none, .absent, .val 5, 0⟩ []).1.status ≠ 404 ∧
    (updateExpense "aaaaaaaaaaaaaaaaaaaaaaaa" ⟨none, .absent, .val 5, 0⟩ []).1 =
      { status := 200, body := RespBody.success } := by
  have h := claim_update_missing_id_no_mutation "aaaaaaaaaaaaaaaaaaaaaaaa"
    ⟨none, .absent, .val 5, 0⟩ [] (by decide) (by simp)
  exact ⟨h.1, h.2.1, h.2.2 (Or.inl (by decide))
    (fun c hc => by cases hc; decide) (fun d hd => by cases hd)⟩

/-- C10 counterexample: PATCH `{"description": null}` on an existing
record does not succeed: the null field decodes to a nil pointer and is
skipped, the `$set` document stays empty, MongoDB rejects it with
FailedToParse and the handler answers 400 — not the success the claim
asserts. -/
theorem claim_update_null_description_counterexample :
    (updateExpense "aaaaaaaaaaaaaaaaaaaaaaaa" ⟨none, .null, .absent, 0⟩
        [⟨"aaaaaaaaaaaaaaaaaaaaaaaa", "Coffee", 2, 7⟩]).1 =
      { status := 400, body := RespBody.error emptySetErrMsg } ∧
    (updateExpense "aaaaaaaaaaaaaaaaaaaaaaaa" ⟨none, .null, .absent, 0⟩
        [⟨"aaaaaaaaaaaaaaaaaaaaaaaa", "Coffee", 2, 7⟩]).1.body ≠
      RespBody.success ∧
    (updateExpense "aaaaaaaaaaaaaaaaaaaaaaaa" ⟨none, .null, .absent, 0⟩
        [⟨"aaaaaaaaaaaaaaaaaaaaaaaa", "Coffee", 2, 7⟩]).2 =
      [⟨"aaaaaaaaaaaaaaaaaaaaaaaa", "Coffee", 2, 7⟩] :=
  ⟨by decide, by decide, by decide⟩

/-- C10 amended: a PATCH body field supplied as `null` decodes to the
same `nil` pointer as an absent field, so the whole handler behaves
identically on `null` and on absent — the field is never validated,
never written, and the stored field is never modified; but an update
whose only supplied field is `null` is answered with the 400
empty-`$set` error rather than succeeding. -/
theorem claim_update_null_field_like_absent (idStr : String)
    (store : Store) :
    (∀ i cf cd, updateExpense idStr ⟨i, .null, cf, cd⟩ store =
      updateExpense idStr ⟨i, .absent, cf, cd⟩ store) ∧
    (∀ i df cd, updateExpense idStr ⟨i, df, .null, cd⟩ store =
      updateExpense idStr ⟨i, df, .absent, cd⟩ store) ∧
    (isValidObjectIDHex idStr = true →
     ∀ i cd, updateExpense idStr ⟨i, .null, .absent, cd⟩ store =
       ({ status := 400, body := RespBody.error emptySetErrMsg }, store)) := by
  refine ⟨fun _ _ _ => rfl, fun _ _ _ => rfl, fun hid i cd => ?_⟩
  simp [updateExpense, hid, goParsePtr, updateOne]

/-- Witness for the amended C10: on a singleton store, a null
description next to a valid cost behaves as if absent, and a
null-description-only body gets the empty-`$set` 400. -/
theorem claim_update_null_field_like_absent_witness :
    updateExpense "aaaaaaaaaaaaaaaaaaaaaaaa" ⟨none, .null, .val 5, 0⟩
        [⟨"aaaaaaaaaaaaaaaaaaaaaaaa", "Coffee", 2, 7⟩] =
      updateExpense "aaaaaaaaaaaaaaaaaaaaaaaa" ⟨none, .absent, .val 5, 0⟩
        [⟨"aaaaaaaaaaaaaaaaaaaaaaaa", "Coffee", 2, 7⟩] ∧
    updateExpense "aaaaaaaaaaaaaaaaaaaaaaaa" ⟨none, .null, .absent, 0⟩
        [⟨"aaaaaaaaaaaaaaaaaaaaaaaa", "Coffee", 2, 7⟩] =
      ({ status := 400, body := RespBody.error emptySetErrMsg },
       [⟨"aaaaaaaaaaaaaaaaaaaaaaaa", "Coffee", 2, 7⟩]) := by
  have h := claim_update_null_field_like_absent "aaaaaaaaaaaaaaaaaaaaaaaa"
    [⟨"aaaaaaaaaaaaaaaaaaaaaaaa", "Coffee", 2, 7⟩]
  exact ⟨h.1 none (.val 5) 0, h.2.2 (by decide) none 0⟩

end ExpensesTracker
